import Mathlib

/-!
Verification of the dbt-altertable adapter (dbt/adapters/altertable/connections.py):
a shallow embedding of the `AltertableCursor` result cursor, the
`AltertableCredentials` record and the connection-manager `open` logic,
together with proofs of the specified cursor/credential properties.

Python (dynamically typed) values are modelled by a type parameter `α`;
Python `int` is `Int`; Python `None` for an optional field is `Option.none`;
a Python list is a Lean `List`.  Python list indexing and slicing, which the
cursor relies on (`self._results[self._cursor_position]`,
`self._results[a:b]`), are embedded faithfully, including the behaviour on
negative indices and bounds.
-/

namespace DbtAltertable

/-- Python list indexing `l[i]` for an `int` index: a negative index counts
from the end (`l[i]` is `l[len l + i]` when `i < 0`); `none` models the
`IndexError` raised when the index is out of range. -/
def pyIndex {α : Type} (l : List α) (i : Int) : Option α :=
  if i < 0 then
    let j := i + (l.length : Int)
    if j < 0 then none else l[j.toNat]?
  else l[i.toNat]?

/-- Effective bound of a Python slice endpoint: a negative endpoint counts
from the end and is clamped below by 0; a nonnegative endpoint is clamped
above by the length. -/
def pySliceBound (n : Nat) (i : Int) : Nat :=
  if i < 0 then (i + (n : Int)).toNat else min i.toNat n

/-- Python slice `l[a:b]` for `int` bounds `a`, `b` (never raises). -/
def pySlice {α : Type} (l : List α) (a b : Int) : List α :=
  (l.take (pySliceBound l.length b)).drop (pySliceBound l.length a)

/-- Arrow schema field, as consumed by `_process_arrow_table`: only the name
and the type tag are used (the remaining five entries of the PEP 249
description tuple are the constant `None`). -/
structure ArrowField where
  name : String
  type_tag : String
deriving DecidableEq, Repr

/-- In-memory Arrow table as the cursor consumes it: `schema` is the field
list (`table.schema`) and `cols` the column buffers in column order
(`list(table.to_pydict().values())`). -/
structure ArrowTable (α : Type) where
  schema : List ArrowField
  cols : List (List α)
deriving DecidableEq, Repr

/-- State of `AltertableCursor`: `results` is `self._results`,
`description` is `self._description`, `rowcount` is `self._rowcount` and
`cursor_position` is `self._cursor_position` (a Python `int`). -/
structure AltertableCursor (α : Type) where
  results : Option (List (List α)) := none
  description : Option (List ArrowField) := none
  rowcount : Int := -1
  cursor_position : Int := 0
deriving DecidableEq, Repr

/-- Cursor state produced by `AltertableCursor.__init__`. -/
def initCursor {α : Type} : AltertableCursor α :=
  {}

/-- Essentially `List.mapM` in the `Option` monad, written by structural
recursion: maps `f` over the list and fails as soon as `f` fails, modelling a
Python comprehension over a generator that may raise. -/
def traverseOption {ι β : Type} (f : ι → Option β) : List ι → Option (List β)
  | [] => some []
  | a :: l => (f a).bind fun b => (traverseOption f l).map fun bs => b :: bs

/-- Rows built by the comprehension
`[tuple(col[i] for col in columns) for i in range(num_rows)]`;
`none` models the `IndexError` raised when some column is shorter than
`num_rows`. -/
def buildRows {α : Type} (cols : List (List α)) (numRows : Nat) : Option (List (List α)) :=
  traverseOption (fun i => traverseOption (fun col => col[i]?) cols) (List.range numRows)

/-- Embedding of `AltertableCursor._process_arrow_table`.  The description is
assigned first (mirroring the statement order in the source); the returned
`Bool` is `false` when row materialization raises. -/
def process_arrow_table {α : Type} (c : AltertableCursor α) (t : ArrowTable α) :
    AltertableCursor α × Bool :=
  let c1 := { c with description := some t.schema }
  match t.cols with
  | [] => ({ c1 with results := some [], rowcount := 0 }, true)
  | c0 :: _ =>
    match buildRows t.cols c0.length with
    | none => (c1, false)
    | some rows => ({ c1 with results := some rows, rowcount := (rows.length : Int) }, true)

/-- Embedding of `AltertableCursor.execute`.  The transport round trip
(`client.query`/`client.prepare` + `reader.read_all`) is abstracted by its
outcome `transport`; the state reset happens before it is examined, exactly
as in the source.  The returned `Bool` is `false` when the call raises (the
exception propagates to the caller while the cursor keeps the reset state). -/
def execute {α ε : Type} (c : AltertableCursor α) (transport : Except ε (ArrowTable α)) :
    AltertableCursor α × Bool :=
  let c0 : AltertableCursor α :=
    { c with results := none, description := none, rowcount := -1, cursor_position := 0 }
  match transport with
  | Except.error _ => (c0, false)
  | Except.ok t => process_arrow_table c0 t

/-- Outcome of a `fetchone` call: a row, the `None` end-of-result sentinel,
or an `IndexError` escaping from `self._results[self._cursor_position]`. -/
inductive FetchResult (α : Type) where
  | row (r : List α)
  | absent
  | err
deriving DecidableEq, Repr

/-- Embedding of `AltertableCursor.fetchone`. -/
def fetchone {α : Type} (c : AltertableCursor α) : FetchResult α × AltertableCursor α :=
  match c.results with
  | none => (FetchResult.absent, c)
  | some rs =>
    if c.cursor_position ≥ (rs.length : Int) then (FetchResult.absent, c)
    else
      match pyIndex rs c.cursor_position with
      | none => (FetchResult.err, c)
      | some row => (FetchResult.row row, { c with cursor_position := c.cursor_position + 1 })

/-- Embedding of `AltertableCursor.fetchmany`: `size` is the optional
argument (`none` is an omitted argument, defaulted to 1). -/
def fetchmany {α : Type} (c : AltertableCursor α) (size : Option Int) :
    List (List α) × AltertableCursor α :=
  match c.results with
  | none => ([], c)
  | some rs =>
    let sz := size.getD 1
    let e := min (c.cursor_position + sz) (rs.length : Int)
    (pySlice rs c.cursor_position e, { c with cursor_position := e })

/-- Embedding of `AltertableCursor.fetchall`. -/
def fetchall {α : Type} (c : AltertableCursor α) : List (List α) × AltertableCursor α :=
  match c.results with
  | none => ([], c)
  | some rs =>
    (pySlice rs c.cursor_position (rs.length : Int),
     { c with cursor_position := (rs.length : Int) })

/-- Embedding of `AltertableCursor.close`. -/
def close {α : Type} (c : AltertableCursor α) : AltertableCursor α :=
  { c with results := none, description := none }

/-! ### Helper lemmas about `Option`-monad `mapM` and Python slices -/

theorem traverseOption_isSome {ι β : Type} (l : List ι) (f : ι → Option β)
    (h : ∀ x ∈ l, (f x).isSome) : (traverseOption f l).isSome := by
  induction l with
  | nil => simp [traverseOption]
  | cons a l ih =>
    rcases Option.isSome_iff_exists.mp (h a (List.mem_cons_self a l)) with ⟨b, hb⟩
    rcases Option.isSome_iff_exists.mp
      (ih fun x hx => h x (List.mem_cons_of_mem a hx)) with ⟨bs, hbs⟩
    simp [traverseOption, hb, hbs]

theorem traverseOption_some_length {ι β : Type} (l : List ι) (f : ι → Option β) (bs : List β)
    (h : traverseOption f l = some bs) : bs.length = l.length := by
  induction l generalizing bs with
  | nil => simp [traverseOption] at h; simp [← h]
  | cons a l ih =>
    simp only [traverseOption, Option.bind_eq_some, Option.map_eq_some'] at h
    rcases h with ⟨b, _, bs', hbs', rfl⟩
    simp [ih bs' hbs']

theorem traverseOption_some_getElem {ι β : Type} (l : List ι) (f : ι → Option β) (bs : List β)
    (h : traverseOption f l = some bs) : ∀ k : Nat, bs[k]? = l[k]?.bind f := by
  induction l generalizing bs with
  | nil =>
    simp [traverseOption] at h
    subst h
    simp
  | cons a l ih =>
    simp only [traverseOption, Option.bind_eq_some, Option.map_eq_some'] at h
    rcases h with ⟨b, hb, bs', hbs', rfl⟩
    intro k
    cases k with
    | zero => simp [hb]
    | succ k => simpa using ih bs' hbs' k

theorem drop_min_length {α : Type} (l : List α) (k : Nat) :
    l.drop (min k l.length) = l.drop k := by
  rcases le_total k l.length with h | h
  · rw [min_eq_left h]
  · rw [min_eq_right h, List.drop_length, eq_comm]
    exact List.drop_eq_nil_iff.mpr h

theorem pySlice_to_length {α : Type} (l : List α) (p : Int) (hp : 0 ≤ p) :
    pySlice l p (l.length : Int) = l.drop p.toNat := by
  unfold pySlice pySliceBound
  rw [if_neg (by omega), if_neg (by omega), Int.toNat_ofNat]
  simp only [min_self, List.take_length]
  exact drop_min_length l p.toNat

theorem pySlice_nonneg {α : Type} (l : List α) (a b : Int) (ha : 0 ≤ a) (hb0 : 0 ≤ b)
    (hb : b ≤ (l.length : Int)) :
    pySlice l a b = (l.drop a.toNat).take (b.toNat - a.toNat) := by
  unfold pySlice pySliceBound
  have hbneg : ¬ b < 0 := by omega
  have haneg : ¬ a < 0 := by omega
  rw [if_neg hbneg, if_neg haneg]
  have hb' : b.toNat ≤ l.length := by omega
  rw [min_eq_left hb']
  rcases le_total a.toNat l.length with h | h
  · rw [min_eq_left h, List.drop_take]
  · rw [min_eq_right h]
    have h1 : (l.take b.toNat).drop l.length = [] :=
      List.drop_eq_nil_iff.mpr (by simp [List.length_take])
    have h2 : l.drop a.toNat = [] := List.drop_eq_nil_iff.mpr h
    rw [h1, h2, List.take_nil]

/-! ### Claims about `close` and negative `fetchmany` sizes -/

/-- C8: `close()` clears `results` and `description` (the state becomes
"no result": `fetchone` returns the absent sentinel, `fetchmany` and
`fetchall` return the empty list) while leaving `cursor_position` and
`rowcount` unchanged at their pre-close values. -/
theorem c8_close_frame {α : Type} (c : AltertableCursor α) :
    (close c).results = none ∧
    (close c).description = none ∧
    (close c).rowcount = c.rowcount ∧
    (close c).cursor_position = c.cursor_position ∧
    fetchone (close c) = (FetchResult.absent, close c) ∧
    (∀ s : Option Int, fetchmany (close c) s = ([], close c)) ∧
    fetchall (close c) = ([], close c) :=
  ⟨rfl, rfl, rfl, rfl, rfl, fun _ => rfl, rfl⟩

def c9table : ArrowTable Int :=
  { schema := [⟨"x", "int64"⟩], cols := [[1, 2, 3]] }

/-- Cursor holding the 3-row result of `c9table` with `cursor_position = 2`,
reached by `execute` followed by `fetchmany(2)`. -/
def c9cursor : AltertableCursor Int :=
  (fetchmany (execute initCursor (Except.ok c9table : Except Unit _)).1 (some 2)).2

/-- The same cursor after `fetchmany(-5)`. -/
def c9after : AltertableCursor Int :=
  (fetchmany c9cursor (some (-5))).2

/-- C9: there is a cursor state with a non-empty result and
`fetchPosition = 2 > 0` for which `fetchmany (-5)` returns the empty list yet
moves the position backwards to `2 + (-5) = -3`, after which `fetchone`
returns the FIRST row (row `-3` counted from the end, Python-style) rather
than the next unread row `[3]` or the absent sentinel. -/
theorem c9_negative_size_rewinds_cursor :
    c9cursor.results = some [[1], [2], [3]] ∧
    c9cursor.cursor_position = 2 ∧
    0 < c9cursor.cursor_position ∧
    (fetchmany c9cursor (some (-5))).1 = [] ∧
    c9after.cursor_position = c9cursor.cursor_position + (-5) ∧
    c9after.cursor_position < 0 ∧
    (fetchone c9after).1 = FetchResult.row [1] ∧
    pyIndex [[1], [2], [3]] ((3 : Int) + c9after.cursor_position) = some [(1 : Int)] ∧
    (fetchone c9after).1 ≠ FetchResult.absent ∧
    (fetchone c9after).1 ≠ FetchResult.row [3] := by
  decide

/-! ### Characterizations of the fetch operations -/

theorem fetchall_spec {α : Type} (c : AltertableCursor α) (rs : List (List α))
    (hres : c.results = some rs) (h0 : 0 ≤ c.cursor_position) :
    fetchall c = (rs.drop c.cursor_position.toNat,
                  { c with cursor_position := (rs.length : Int) }) := by
  simp only [fetchall, hres]
  rw [pySlice_to_length rs c.cursor_position h0]

theorem fetchmany_pos {α : Type} (c : AltertableCursor α) (rs : List (List α)) (s : Option Int)
    (hres : c.results = some rs) :
    (fetchmany c s).2.cursor_position =
      min (c.cursor_position + s.getD 1) (rs.length : Int) ∧
    (fetchmany c s).2.results = some rs := by
  simp only [fetchmany, hres]
  simp

theorem fetchone_inv {α : Type} (c : AltertableCursor α) (rs : List (List α))
    (hres : c.results = some rs) (h0 : 0 ≤ c.cursor_position)
    (hN : c.cursor_position ≤ (rs.length : Int)) :
    (fetchone c).2.results = some rs ∧ 0 ≤ (fetchone c).2.cursor_position ∧
      (fetchone c).2.cursor_position ≤ (rs.length : Int) := by
  simp only [fetchone, hres]
  by_cases hp : c.cursor_position ≥ (rs.length : Int)
  · simp [hp, hres]
    omega
  · simp only [hp, if_false]
    cases pyIndex rs c.cursor_position with
    | none => simp [hres]; omega
    | some row => simp [hres]; omega

theorem fetchmany_spec {α : Type} (c : AltertableCursor α) (rs : List (List α)) (sz : Int)
    (hres : c.results = some rs) (h0 : 0 ≤ c.cursor_position)
    (hN : c.cursor_position ≤ (rs.length : Int)) (hsz : 0 ≤ sz) :
    (fetchmany c (some sz)).1 = (rs.drop c.cursor_position.toNat).take sz.toNat := by
  simp only [fetchmany, hres, Option.getD_some]
  have he0 : 0 ≤ min (c.cursor_position + sz) (rs.length : Int) := by omega
  have heN : min (c.cursor_position + sz) (rs.length : Int) ≤ (rs.length : Int) :=
    min_le_right _ _
  rw [pySlice_nonneg rs c.cursor_position _ h0 he0 heN]
  rw [List.take_eq_take]
  simp only [List.length_drop]
  omega

/-! ### Sequences of fetch calls (for the fetchAll-after-partial-fetches law) -/

/-- One cursor call from the fetch family: `fetchone()` or `fetchmany(size)`
(with `size = none` for an omitted argument). -/
inductive FetchCall where
  | one : FetchCall
  | many (size : Option Int) : FetchCall

/-- Applies a fetch call to the cursor, keeping only the state. -/
def applyCall {α : Type} (c : AltertableCursor α) : FetchCall → AltertableCursor α
  | FetchCall.one => (fetchone c).2
  | FetchCall.many s => (fetchmany c s).2

/-- Runs a sequence of fetch calls left to right. -/
def runCalls {α : Type} (c : AltertableCursor α) (calls : List FetchCall) : AltertableCursor α :=
  calls.foldl applyCall c

/-- A fetch call whose (defaulted) size argument is nonnegative. -/
def sizeOk : FetchCall → Bool
  | FetchCall.one => true
  | FetchCall.many s => decide (0 ≤ s.getD 1)

theorem applyCall_inv {α : Type} (c : AltertableCursor α) (rs : List (List α)) (k : FetchCall)
    (hres : c.results = some rs) (h0 : 0 ≤ c.cursor_position)
    (hN : c.cursor_position ≤ (rs.length : Int)) (hk : sizeOk k = true) :
    (applyCall c k).results = some rs ∧ 0 ≤ (applyCall c k).cursor_position ∧
      (applyCall c k).cursor_position ≤ (rs.length : Int) := by
  cases k with
  | one => simpa [applyCall] using fetchone_inv c rs hres h0 hN
  | many s =>
    have h := fetchmany_pos c rs s hres
    have hs : 0 ≤ s.getD 1 := by simpa [sizeOk] using hk
    refine ⟨h.2, ?_, ?_⟩ <;>
      rw [show applyCall c (FetchCall.many s) = (fetchmany c s).2 from rfl, h.1] <;> omega

theorem runCalls_inv {α : Type} (calls : List FetchCall) (c : AltertableCursor α)
    (rs : List (List α)) (hres : c.results = some rs) (h0 : 0 ≤ c.cursor_position)
    (hN : c.cursor_position ≤ (rs.length : Int)) (hok : ∀ k ∈ calls, sizeOk k = true) :
    (runCalls c calls).results = some rs ∧ 0 ≤ (runCalls c calls).cursor_position ∧
      (runCalls c calls).cursor_position ≤ (rs.length : Int) := by
  induction calls generalizing c with
  | nil => exact ⟨hres, h0, hN⟩
  | cons k ks ih =>
    have h1 := applyCall_inv c rs k hres h0 hN (hok k (List.mem_cons_self k ks))
    have h2 := ih (applyCall c k) h1.1 h1.2.1 h1.2.2
      (fun k2 hk2 => hok k2 (List.mem_cons_of_mem k hk2))
    simpa [runCalls, List.foldl_cons] using h2

/-- C2 (amended: the fetchmany sizes occurring in the call sequence are
nonnegative): for a cursor holding a materialized result of `N` rows, after
any such sequence of `fetchone`/`fetchmany` calls leaving
`cursor_position = p`, `fetchall` returns exactly the remaining `N - p` rows
in order, advances the position to `N`, and a subsequent `fetchone` returns
the absent sentinel without raising. -/
theorem c2_fetchall_after_calls {α : Type} (c : AltertableCursor α) (rs : List (List α))
    (calls : List FetchCall) (hres : c.results = some rs) (h0 : 0 ≤ c.cursor_position)
    (hN : c.cursor_position ≤ (rs.length : Int)) (hok : ∀ k ∈ calls, sizeOk k = true) :
    (fetchall (runCalls c calls)).1 = rs.drop (runCalls c calls).cursor_position.toNat ∧
    ((fetchall (runCalls c calls)).1.length : Int) =
      (rs.length : Int) - (runCalls c calls).cursor_position ∧
    (fetchall (runCalls c calls)).2.cursor_position = (rs.length : Int) ∧
    (fetchone (fetchall (runCalls c calls)).2).1 = FetchResult.absent ∧
    (fetchone (fetchall (runCalls c calls)).2).2 = (fetchall (runCalls c calls)).2 := by
  obtain ⟨hres1, h01, hN1⟩ := runCalls_inv calls c rs hres h0 hN hok
  have hfa := fetchall_spec (runCalls c calls) rs hres1 h01
  rw [hfa]
  refine ⟨rfl, ?_, rfl, ?_, ?_⟩
  · simp only [List.length_drop]
    omega
  · simp [fetchone, hres1]
  · simp [fetchone, hres1]

def c2table : ArrowTable Int :=
  { schema := [⟨"x", "i"⟩], cols := [[1, 2]] }

/-- Cursor obtained by `execute` on `c2table` followed by the call sequence
`fetchone(); fetchmany(-3)`; its position is `1 + (-3) = -2`. -/
def c2cursor : AltertableCursor Int :=
  runCalls (execute initCursor (Except.ok c2table : Except Unit _)).1
    [FetchCall.one, FetchCall.many (some (-3))]

/-- C2 as literally stated is false: after the call sequence
`fetchone(); fetchmany(-3)` on a 2-row result, the position is `p = -2`, and
`fetchall` returns 2 rows, not `N - p = 4` rows. -/
theorem c2_counterexample :
    c2cursor.results = some [[1], [2]] ∧
    c2cursor.cursor_position = -2 ∧
    (fetchall c2cursor).1.length = 2 ∧
    (([[1], [2]] : List (List Int)).length : Int) - c2cursor.cursor_position = 4 ∧
    ((fetchall c2cursor).1.length : Int) ≠
      (([[1], [2]] : List (List Int)).length : Int) - c2cursor.cursor_position := by
  decide

/-- Witness for the amended C2 at a concrete input: `fetchone` after
`fetchall` after the sequence `fetchone(); fetchmany(1)` is absent. -/
theorem c2_witness :
    (fetchone (fetchall (runCalls
        (execute (initCursor : AltertableCursor Int) (Except.ok c2table : Except Unit _)).1
        [FetchCall.one, FetchCall.many (some 1)])).2).1 = FetchResult.absent :=
  (c2_fetchall_after_calls
    (execute (initCursor : AltertableCursor Int) (Except.ok c2table : Except Unit _)).1
    [[1], [2]] [FetchCall.one, FetchCall.many (some 1)]
    (by decide) (by decide) (by decide) (by decide)).2.2.2.1

/-- C3 (amended: for a nonnegative `size`, and a fetch position inside the
result as maintained by nonnegative-size call sequences): `fetchmany(size)`
returns exactly `min(size, remaining)` rows starting at the fetch position
and advances the position by the number of rows actually returned; an
omitted size defaults to 1; with no result it returns the empty list. -/
theorem c3_fetchmany_min {α : Type} (c : AltertableCursor α) (rs : List (List α)) (sz : Int)
    (hres : c.results = some rs) (h0 : 0 ≤ c.cursor_position)
    (hN : c.cursor_position ≤ (rs.length : Int)) (hsz : 0 ≤ sz) :
    (fetchmany c (some sz)).1 = (rs.drop c.cursor_position.toNat).take sz.toNat ∧
    ((fetchmany c (some sz)).1.length : Int) = min sz ((rs.length : Int) - c.cursor_position) ∧
    (fetchmany c (some sz)).2.cursor_position =
      c.cursor_position + ((fetchmany c (some sz)).1.length : Int) ∧
    (fetchmany c (some sz)).2.results = some rs ∧
    (∀ c2 : AltertableCursor α, fetchmany c2 none = fetchmany c2 (some 1)) ∧
    (∀ c2 : AltertableCursor α, c2.results = none → ∀ s, fetchmany c2 s = ([], c2)) := by
  have h1 := fetchmany_spec c rs sz hres h0 hN hsz
  have h2 := fetchmany_pos c rs (some sz) hres
  have hlen : ((fetchmany c (some sz)).1.length : Int) =
      min sz ((rs.length : Int) - c.cursor_position) := by
    rw [h1]
    simp only [List.length_take, List.length_drop]
    omega
  refine ⟨h1, hlen, ?_, h2.2, ?_, ?_⟩
  · rw [h2.1, hlen]
    simp only [Option.getD_some]
    omega
  · intro c2
    cases hr : c2.results with
    | none => simp [fetchmany, hr]
    | some rs2 => simp [fetchmany, hr]
  · intro c2 hr s
    simp [fetchmany, hr]

def c3table : ArrowTable Int :=
  { schema := [⟨"x", "i"⟩], cols := [[1, 2]] }

/-- Cursor obtained by `execute` on `c3table`: 2 rows, position 0. -/
def c3cursor : AltertableCursor Int :=
  (execute initCursor (Except.ok c3table : Except Unit _)).1

/-- C3 as literally stated is false for a negative size: on a fresh 2-row
result, `fetchmany(-3)` returns 0 rows, not `min(-3, 2) = -3` rows, and moves
the position from 0 to `-3` instead of advancing it by the number of rows
returned (0). -/
theorem c3_counterexample :
    c3cursor.results = some [[1], [2]] ∧
    c3cursor.cursor_position = 0 ∧
    (fetchmany c3cursor (some (-3))).1 = [] ∧
    ((fetchmany c3cursor (some (-3))).1.length : Int) ≠
      min (-3 : Int) ((([[1], [2]] : List (List Int)).length : Int) - c3cursor.cursor_position) ∧
    (fetchmany c3cursor (some (-3))).2.cursor_position = -3 ∧
    (fetchmany c3cursor (some (-3))).2.cursor_position ≠
      c3cursor.cursor_position + ((fetchmany c3cursor (some (-3))).1.length : Int) := by
  decide

/-- Witness for the amended C3 at a concrete input: `fetchmany(5)` on a fresh
2-row result returns `min(5, 2) = 2` rows. -/
theorem c3_witness :
    ((fetchmany c3cursor (some 5)).1.length : Int) =
      min 5 ((([[1], [2]] : List (List Int)).length : Int) - c3cursor.cursor_position) :=
  (c3_fetchmany_min c3cursor [[1], [2]] 5 (by decide) (by decide) (by decide) (by decide)).2.1

/-! ### Materialization: C1, C4, C10 -/

theorem buildRows_spec {α : Type} (cols : List (List α)) (N : Nat)
    (hlen : ∀ col ∈ cols, col.length = N) :
    ∃ rows, buildRows cols N = some rows ∧ rows.length = N ∧
      (∀ (i : Nat) (r : List α), rows[i]? = some r → r.length = cols.length) ∧
      (∀ i j : Nat, (rows[i]?.bind fun r => r[j]?) = (cols[j]?.bind fun col => col[i]?)) := by
  have hsome : (buildRows cols N).isSome := by
    apply traverseOption_isSome
    intro i hi
    apply traverseOption_isSome
    intro col hc
    have hil : i < col.length := by
      rw [hlen col hc]
      exact List.mem_range.mp hi
    simp [List.getElem?_eq_getElem hil]
  rcases Option.isSome_iff_exists.mp hsome with ⟨rows, hrows⟩
  have hrl : rows.length = N := by
    rw [traverseOption_some_length _ _ _ hrows, List.length_range]
  refine ⟨rows, hrows, hrl, ?_, ?_⟩
  · intro i r hr
    have hg := traverseOption_some_getElem _ _ _ hrows i
    rw [hr] at hg
    by_cases hi : i < N
    · rw [List.getElem?_range hi] at hg
      simp only [Option.some_bind] at hg
      exact traverseOption_some_length _ _ _ hg.symm
    · rw [List.getElem?_eq_none (by simp [List.length_range]; omega)] at hg
      simp at hg
  · intro i j
    have hg := traverseOption_some_getElem _ _ _ hrows i
    by_cases hi : i < N
    · rw [List.getElem?_range hi] at hg
      simp only [Option.some_bind] at hg
      have hi' : i < rows.length := by omega
      rw [List.getElem?_eq_getElem hi'] at hg
      rw [List.getElem?_eq_getElem hi', Option.some_bind]
      exact traverseOption_some_getElem _ _ _ hg.symm j
    · have h1 : rows[i]? = none := List.getElem?_eq_none (by omega)
      rw [h1, Option.none_bind]
      cases hcj : cols[j]? with
      | none => simp
      | some col =>
        have hmem : col ∈ cols := List.getElem?_mem hcj
        rw [Option.some_bind, List.getElem?_eq_none (by rw [hlen col hmem]; omega)]

/-- C1: for a ResultTable whose column buffers all have length `N`, `execute`
succeeds and a following `fetchall` returns exactly `N` row-tuples (for a
positive column count `C`), each of length `C`, with entry `j` of row `i`
equal to entry `i` of column `j`; with `C = 0` the materialized row sequence
is empty. -/
theorem c1_execute_fetchall {α ε : Type} (c : AltertableCursor α) (t : ArrowTable α) (N : Nat)
    (hlen : ∀ col ∈ t.cols, col.length = N) :
    (execute c (Except.ok t : Except ε _)).2 = true ∧
    (t.cols = [] → (fetchall (execute c (Except.ok t : Except ε _)).1).1 = []) ∧
    (t.cols ≠ [] → (fetchall (execute c (Except.ok t : Except ε _)).1).1.length = N) ∧
    (∀ (i : Nat) (r : List α),
        (fetchall (execute c (Except.ok t : Except ε _)).1).1[i]? = some r →
        r.length = t.cols.length) ∧
    (∀ i j : Nat,
        ((fetchall (execute c (Except.ok t : Except ε _)).1).1[i]?.bind fun r => r[j]?) =
          (t.cols[j]?.bind fun col => col[i]?)) := by
  rcases t with ⟨schema, cols⟩
  cases cols with
  | nil =>
    have hemp : (fetchall (execute c (Except.ok ⟨schema, []⟩ : Except ε _)).1).1 =
        ([] : List (List α)) := rfl
    refine ⟨rfl, fun _ => rfl, fun hne => absurd rfl hne, ?_, ?_⟩
    · intro i r hr
      rw [hemp] at hr
      simp at hr
    · intro i j
      rw [hemp]
      simp
  | cons c0 rest =>
    have hc0 : c0.length = N := hlen c0 (List.mem_cons_self c0 rest)
    obtain ⟨rows, hrows, hrl, hrowlen, htr⟩ := buildRows_spec (c0 :: rest) N hlen
    have hex : execute c (Except.ok ⟨schema, c0 :: rest⟩ : Except ε _) =
        ({ results := some rows, description := some schema,
           rowcount := (rows.length : Int), cursor_position := 0 }, true) := by
      simp only [execute, process_arrow_table, hc0, hrows]
    have hfa : (fetchall (execute c (Except.ok ⟨schema, c0 :: rest⟩ : Except ε _)).1).1 = rows := by
      rw [hex]
      simp [fetchall, pySlice_to_length rows 0 (le_refl 0)]
    rw [hex] at hfa ⊢
    exact ⟨rfl, fun h => absurd h (by simp), fun _ => by rw [hfa, hrl],
      fun i r hr => hrowlen i r (by rw [← hfa]; exact hr),
      fun i j => by rw [hfa]; exact htr i j⟩

/-- Witness for C1 at a concrete input: a 2x2 table materializes to 2 rows
of length 2, with the transposition property at `(1, 0)`. -/
theorem c1_witness :
    (execute (initCursor : AltertableCursor Int)
        (Except.ok ⟨[⟨"id", "i"⟩, ⟨"name", "i"⟩], [[1, 2], [10, 20]]⟩ : Except Unit _)).2 = true ∧
    (fetchall (execute (initCursor : AltertableCursor Int)
        (Except.ok ⟨[⟨"id", "i"⟩, ⟨"name", "i"⟩], [[1, 2], [10, 20]]⟩ : Except Unit _)).1).1.length
      = 2 :=
  ⟨(c1_execute_fetchall initCursor _ 2 (by decide)).1,
   (c1_execute_fetchall initCursor _ 2 (by decide)).2.2.1 (by decide)⟩

/-- C4: `rowcount` is `-1` on a freshly constructed cursor; after a
successful `execute` it equals the length of the materialized row list
(including 0); the empty ResultTable (0 columns, 0 rows) yields
`rowcount = 0`, an empty description and an empty `fetchall`. -/
theorem c4_rowcount {α ε : Type} (c : AltertableCursor α) (tr : Except ε (ArrowTable α))
    (hok : (execute c tr).2 = true) :
    (initCursor : AltertableCursor α).rowcount = -1 ∧
    (∃ rows, (execute c tr).1.results = some rows ∧
      (execute c tr).1.rowcount = (rows.length : Int)) ∧
    (∀ c2 : AltertableCursor α,
      (execute c2 (Except.ok ⟨[], []⟩ : Except ε _)).1.results = some [] ∧
      (execute c2 (Except.ok ⟨[], []⟩ : Except ε _)).1.rowcount = 0 ∧
      (execute c2 (Except.ok ⟨[], []⟩ : Except ε _)).1.description = some [] ∧
      (fetchall (execute c2 (Except.ok ⟨[], []⟩ : Except ε _)).1).1 = []) := by
  refine ⟨rfl, ?_, fun c2 => ⟨rfl, rfl, rfl, rfl⟩⟩
  cases tr with
  | error e => simp [execute] at hok
  | ok t =>
    rcases t with ⟨schema, cols⟩
    cases cols with
    | nil => exact ⟨[], rfl, rfl⟩
    | cons c0 rest =>
      cases hbr : buildRows (c0 :: rest) c0.length with
      | none => simp [execute, process_arrow_table, hbr] at hok
      | some rows =>
        exact ⟨rows, by simp [execute, process_arrow_table, hbr],
          by simp [execute, process_arrow_table, hbr]⟩

/-- Witness for C4 at a concrete input: the empty table yields
`rowcount = 0`. -/
theorem c4_witness :
    (execute (initCursor : AltertableCursor Int)
      (Except.ok ⟨[], []⟩ : Except Unit (ArrowTable Int))).1.rowcount = 0 :=
  ((c4_rowcount (initCursor : AltertableCursor Int)
    (Except.ok ⟨[], []⟩ : Except Unit (ArrowTable Int)) (by decide)).2.2
    (initCursor : AltertableCursor Int)).2.1

/-- C10: `execute` resets the cursor before the transport call, so when the
call raises, the prior result is lost: the cursor is exactly the freshly
constructed state (`results`/`description` absent, `rowcount = -1`,
`cursor_position = 0`) and the fetch calls behave as if no execution had
occurred. -/
theorem c10_execute_error_resets {α ε : Type} (c : AltertableCursor α) (rs : List (List α))
    (e : ε) (_hprior : c.results = some rs) :
    (execute c (Except.error e)).2 = false ∧
    (execute c (Except.error e)).1 = (initCursor : AltertableCursor α) ∧
    (execute c (Except.error e)).1.results = none ∧
    (execute c (Except.error e)).1.description = none ∧
    (execute c (Except.error e)).1.rowcount = -1 ∧
    (execute c (Except.error e)).1.cursor_position = 0 ∧
    (fetchone (execute c (Except.error e)).1).1 = FetchResult.absent ∧
    (∀ s, fetchmany (execute c (Except.error e)).1 s = ([], (execute c (Except.error e)).1)) ∧
    fetchall (execute c (Except.error e)).1 = ([], (execute c (Except.error e)).1) :=
  ⟨rfl, rfl, rfl, rfl, rfl, rfl, rfl, fun _ => rfl, rfl⟩

/-- Witness for C10 at a concrete input: a failing `execute` on a cursor that
holds a 1-row prior result leaves the freshly constructed state. -/
theorem c10_witness :
    (execute (execute (initCursor : AltertableCursor Int)
        (Except.ok ⟨[⟨"x", "i"⟩], [[1]]⟩ : Except Unit _)).1
      (Except.error () : Except Unit (ArrowTable Int))).1 = initCursor :=
  (c10_execute_error_resets _ [[1]] () (by decide)).2.1

/-! ### Credentials and connection manager: C5, C6, C7 -/

/-- Configuration-time error taxonomy entry for malformed credential
fields. -/
inductive ConfigError where
  | invalidConfiguration
deriving DecidableEq, Repr

/-- Embedding of the `AltertableCredentials` dataclass: `username` and
`password` are mandatory, `database`/`schema` come from the framework base
class, and `host`/`port`/`tls` carry the declared defaults.  The port bounds
`Minimum(0)`/`Maximum(65535)` are declared on the `port` field in the
source. -/
structure AltertableCredentials where
  username : String
  password : String
  database : String
  schema : String
  host : String := "flight.altertable.ai"
  port : Int := 443
  tls : Bool := true
deriving DecidableEq, Repr

/-- Modelled from the spec: credential construction from a configuration
mapping is performed by the host framework (which enforces the
`Minimum(0)`/`Maximum(65535)` bounds declared on the `port` field in the
source); that machinery is not under src/.  A port outside `[0, 65535]` is a
constructor-time `InvalidConfiguration` failure; no other field is validated
at this layer; an omitted `host`/`port`/`tls` takes the declared default. -/
def mkCredentials (username password database schema : String)
    (host : Option String) (port : Option Int) (tls : Option Bool) :
    Except ConfigError AltertableCredentials :=
  let p := port.getD 443
  if p < 0 ∨ 65535 < p then Except.error ConfigError.invalidConfiguration
  else Except.ok { username := username, password := password, database := database,
                   schema := schema, host := host.getD "flight.altertable.ai",
                   port := p, tls := tls.getD true }

/-- Modelled from the spec: the connection-target URI derivation
(`grpc+tls://host:port` under TLS, `grpc://host:port` otherwise) happens in
the transport client configured by `AltertableConnectionManager.open`; the
repository's unit tests exercise it as the credential method `adbc_uri`,
which is not under src/.  A pure, deterministic function of the credential
fields. -/
def adbc_uri (c : AltertableCredentials) : String :=
  (if c.tls then "grpc+tls://" else "grpc://") ++ c.host ++ ":" ++ toString c.port

/-- C5: the derived connection-target URI is `grpc+tls://host:port` when TLS
is enabled and `grpc://host:port` otherwise; in particular the credentials
`{username: "u", password: "p", host: "h", port: 5000, tls: false}` yield
`"grpc://h:5000"`.  (As a Lean function the derivation is deterministic and
side-effect free by construction.) -/
theorem c5_target_uri :
    (∀ c : AltertableCredentials, c.tls = true →
      adbc_uri c = "grpc+tls://" ++ c.host ++ ":" ++ toString c.port) ∧
    (∀ c : AltertableCredentials, c.tls = false →
      adbc_uri c = "grpc://" ++ c.host ++ ":" ++ toString c.port) ∧
    mkCredentials "u" "p" "db" "sc" (some "h") (some 5000) (some false) =
      Except.ok { username := "u", password := "p", database := "db", schema := "sc",
                  host := "h", port := 5000, tls := false } ∧
    adbc_uri { username := "u", password := "p", database := "db", schema := "sc",
               host := "h", port := 5000, tls := false } = "grpc://h:5000" := by
  refine ⟨fun c hc => ?_, fun c hc => ?_, by rfl, by decide⟩
  · rw [adbc_uri, hc]
    simp
  · rw [adbc_uri, hc]
    simp

/-- Witness for C5 at a concrete input: a TLS-enabled credential set yields
the `grpc+tls` scheme. -/
theorem c5_witness :
    adbc_uri { username := "a", password := "b", database := "d", schema := "s",
               host := "x", port := 443, tls := true } =
      "grpc+tls://" ++ "x" ++ ":" ++ toString (443 : Int) :=
  c5_target_uri.1 _ rfl

/-- C6: a port outside `[0, 65535]` fails credential construction with
`InvalidConfiguration`; a port inside the range always succeeds whatever the
other fields are (no other field is validated at this layer), and omitted
`host`/`port`/`tls` take the defaults `"flight.altertable.ai"`, 443,
`true`. -/
theorem c6_port_validation (u pw db sc : String) (h : Option String) (p : Int)
    (t : Option Bool) (hout : p < 0 ∨ 65535 < p) :
    mkCredentials u pw db sc h (some p) t = Except.error ConfigError.invalidConfiguration ∧
    (∀ u2 pw2 db2 sc2 : String, mkCredentials u2 pw2 db2 sc2 none none none =
      Except.ok { username := u2, password := pw2, database := db2, schema := sc2,
                  host := "flight.altertable.ai", port := 443, tls := true }) ∧
    (∀ (u2 pw2 db2 sc2 : String) (h2 : Option String) (p2 : Int) (t2 : Option Bool),
      0 ≤ p2 → p2 ≤ 65535 →
      mkCredentials u2 pw2 db2 sc2 h2 (some p2) t2 =
        Except.ok { username := u2, password := pw2, database := db2, schema := sc2,
                    host := h2.getD "flight.altertable.ai", port := p2,
                    tls := t2.getD true }) := by
  refine ⟨?_, fun u2 pw2 db2 sc2 => ?_, fun u2 pw2 db2 sc2 h2 p2 t2 hp0 hp1 => ?_⟩
  · rw [mkCredentials]
    simp only [Option.getD_some]
    rw [if_pos hout]
  · rw [mkCredentials]
    simp
  · rw [mkCredentials]
    simp only [Option.getD_some]
    rw [if_neg (by omega)]

/-- Witness for C6 at a concrete input: port 70000 is rejected. -/
theorem c6_witness :
    mkCredentials "u" "p" "db" "sc" none (some 70000) none =
      Except.error ConfigError.invalidConfiguration :=
  (c6_port_validation "u" "p" "db" "sc" none 70000 none (by decide)).1

/-- Connection lifecycle states of the framework `Connection` contract. -/
inductive ConnectionState where
  | init
  | opened
  | closed
  | fail
deriving DecidableEq, Repr

/-- The `altertable_flightsql.Client` as constructed by the `connect` closure
in `AltertableConnectionManager.open`: it records exactly the keyword
arguments passed there. -/
structure FlightClient where
  username : String
  password : String
  catalog : String
  schema : String
  host : String
  port : Int
  tls : Bool
deriving DecidableEq, Repr

/-- Framework `Connection` object: lifecycle state, credentials, and the
transport handle when open. -/
structure Connection where
  state : ConnectionState
  credentials : AltertableCredentials
  handle : Option FlightClient := none
deriving DecidableEq, Repr

/-- The `connect` closure of `AltertableConnectionManager.open`: builds a
client from the credential fields (`catalog` is the `database` field). -/
def connectClient (cr : AltertableCredentials) : FlightClient :=
  { username := cr.username, password := cr.password, catalog := cr.database,
    schema := cr.schema, host := cr.host, port := cr.port, tls := cr.tls }

/-- Modelled from the spec: `retry_connection` is host-framework code (the
dbt SQL connection-manager base class), not under src/; per the spec it
attempts the transport connect, retrying at most `retry_limit = 1` time with
every exception retryable, and marks the connection open on success.
`connectOk k` tells whether the k-th transport connect attempt succeeds; the
returned `Nat` counts transport connect calls; `none` is the fatal failure
after the retry is exhausted. -/
def retry_connection (conn : Connection) (connectOk : Nat → Bool) :
    Option Connection × Nat :=
  if connectOk 0 then
    (some { conn with state := ConnectionState.opened,
                      handle := some (connectClient conn.credentials) }, 1)
  else if connectOk 1 then
    (some { conn with state := ConnectionState.opened,
                      handle := some (connectClient conn.credentials) }, 2)
  else (none, 2)

/-- Embedding of `AltertableConnectionManager.open`: a connection already in
the OPEN state is returned unchanged before any transport work; otherwise the
host framework's retry wrapper drives the `connect` closure. -/
def openConnection (conn : Connection) (connectOk : Nat → Bool) :
    Option Connection × Nat :=
  if conn.state = ConnectionState.opened then (some conn, 0)
  else retry_connection conn connectOk

/-- C7: `open` is idempotent on already-open connections: with the state
OPEN, it performs zero transport connect calls and returns the very same
connection unchanged, whatever the transport would have done. -/
theorem c7_open_idempotent (conn : Connection) (connectOk : Nat → Bool)
    (h : conn.state = ConnectionState.opened) :
    openConnection conn connectOk = (some conn, 0) := by
  rw [openConnection, if_pos h]

/-- Witness for C7 at a concrete input: an open connection with failing
transport is returned unchanged with zero connect calls. -/
theorem c7_witness :
    openConnection
      { state := ConnectionState.opened,
        credentials := { username := "u", password := "p", database := "d", schema := "s" } }
      (fun _ => false) =
    (some { state := ConnectionState.opened,
            credentials := { username := "u", password := "p", database := "d",
                             schema := "s" } }, 0) :=
  c7_open_idempotent _ _ rfl

end DbtAltertable
